import Mathlib

/-!
Shallow embedding of the block management engine of a user space memory
allocator (src/src/allocator.cpp).  Machine integers (size_t and pointers)
are modelled as Nat, reduced modulo W = 2^64 exactly where the C
arithmetic wraps.  Memory is word granular: Mem maps a byte address (every
address the engine dereferences is a multiple of 8) to the 64-bit word
stored there; the null pointer is address 0.  The C search loop is
modelled with an explicit fuel argument that is ample for every
terminating run considered here.
-/

/-- Word modulus: size_t arithmetic and pointer arithmetic wrap modulo 2^64. -/
def W : Nat := 2 ^ 64

/-- sizeof(Block) on x86-64: a size_t header word plus a void pointer field. -/
def headerSize : Nat := 16

/-- Word granular memory: the 64-bit word stored at each byte address. -/
def Mem : Type := Nat → Nat

/-- Write the word v at address a. -/
def store (m : Mem) (a v : Nat) : Mem := fun x => if x = a then v else m x

/-- align from the source: (n + sizeof(void*) - 1) & ~(sizeof(void*) - 1)
computed in size_t, so the addition wraps modulo 2^64 first. -/
def align (n : Nat) : Nat := ((n + 7) % W) &&& (W - 8)

/-- getBlockSize from the source: the header word with the free bit masked off. -/
def getBlockSize (m : Mem) (b : Nat) : Nat := m b &&& (W - 2)

/-- getNext from the source: (Block*)((char*)block + getBlockSize(block)). -/
def getNext (m : Mem) (b : Nat) : Nat := (b + getBlockSize m b) % W

/-- isFree from the source: bit 0 of the header word. -/
def isFree (m : Mem) (b : Nat) : Bool := m b &&& 1 != 0

/-- setFree from the source: set or clear bit 0 of the header word. -/
def setFree (m : Mem) (b : Nat) (f : Bool) : Mem :=
  if f then store m b (m b ||| 1) else store m b (m b &&& (W - 2))

/-- setSize from the source: header = size | (header & 1). -/
def setSize (m : Mem) (b s : Nat) : Mem := store m b (s ||| (m b &&& 1))

/-- getBlock from the source: null maps to null, otherwise the payload
pointer minus sizeof(Block). -/
def getBlock (data : Nat) : Nat := if data = 0 then 0 else (data + (W - 16)) % W

/-- The three search strategies declared by the source. -/
inductive SearchMode where
  | BestFit
  | FirstFit
  | NextFit

/-- The process wide allocator state: memory, the globals heapStart, top and
the active search mode, plus the program break and its cap modelling sbrk. -/
structure AState where
  mem : Mem
  heapStart : Nat
  top : Nat
  brk : Nat
  cap : Nat
  searchMode : SearchMode

/-- canSplit from the source: getBlockSize(block) >= size, nothing more. -/
def canSplit (m : Mem) (b size : Nat) : Bool := decide (getBlockSize m b ≥ size)

/-- split from the source: shrink the block to size, then mark the chain
successor Free with recorded size originalSize - size - sizeof(Block),
computed in size_t (it wraps below zero). -/
def split (m : Mem) (b size : Nat) : Mem :=
  let originalSize := getBlockSize m b
  let m1 := setSize m b size
  let next := getNext m1 b
  let m2 := setFree m1 next true
  setSize m2 next ((originalSize + 2 * W - size - 16) % W)

/-- canMerge from the source: the chain successor is nonnull, at most top, and Free. -/
def canMerge (m : Mem) (top b : Nat) : Bool :=
  let next := getNext m b
  next != 0 && decide (next ≤ top) && isFree m next

/-- merge from the source: setSize(block, blockSize + nextSize - sizeof(Block))
in size_t arithmetic; only the block's own header word is written. -/
def merge (m : Mem) (b : Nat) : Mem :=
  let next := getNext m b
  let nextSize := getBlockSize m next
  let blockSize := getBlockSize m b
  setSize m b ((blockSize + nextSize + (W - 16)) % W)

/-- bestFit from the source: the body is a TODO stub returning heapStart. -/
def bestFit (s : AState) (size : Nat) : Nat := s.heapStart

/-- The firstFit while loop of the source, with fuel. -/
def firstFitAux (m : Mem) (top size : Nat) : Nat → Nat → Nat
  | 0, _ => 0
  | fuel + 1, block =>
    if block ≠ 0 ∧ block ≤ top then
      if isFree m block ∧ getBlockSize m block ≥ size then block
      else firstFitAux m top size fuel (getNext m block)
    else 0

/-- firstFit from the source: scan the chain from heapStart up to top. -/
def firstFit (s : AState) (size : Nat) : Nat :=
  firstFitAux s.mem s.top size (s.top + 1) s.heapStart

/-- nextFit from the source: the body is a TODO stub returning heapStart. -/
def nextFit (s : AState) (size : Nat) : Nat := s.heapStart

/-- findBlock from the source: dispatch on the search mode, then split
whenever the found block passes canSplit. -/
def findBlock (s : AState) (size : Nat) : AState × Nat :=
  let block :=
    match s.searchMode with
    | SearchMode.BestFit => bestFit s size
    | SearchMode.FirstFit => firstFit s size
    | SearchMode.NextFit => nextFit s size
  if block ≠ 0 ∧ canSplit s.mem block size then
    ({ s with mem := split s.mem block size }, block)
  else (s, block)

/-- requestFromOS from the source: sbrk(0) names the new block, sbrk(size)
grows the break by size bytes (failing beyond the cap), the new header is
formatted Free with size - sizeof(Block), and on a nonempty heap the
data field of getNext(top) is pointed at the new block. -/
def requestFromOS (s : AState) (size : Nat) : AState × Nat :=
  let block := s.brk
  if s.brk + size ≤ s.cap then
    let s1 : AState := { s with brk := s.brk + size }
    let m1 := setSize s1.mem block ((size + (W - 16)) % W)
    let m2 := setFree m1 block true
    if s1.heapStart = 0 then
      ({ s1 with mem := m2, heapStart := block, top := block }, block)
    else
      let m3 := store m2 ((getNext m2 s1.top + 8) % W) block
      ({ s1 with mem := m3, top := block }, block)
  else (s, 0)

/-- The _free of the source: null is a no-op; otherwise mark the block Free
and merge forward once if canMerge holds. -/
def _free (s : AState) (data : Nat) : AState :=
  if data = 0 then s
  else
    let b := getBlock data
    let m1 := setFree s.mem b true
    if canMerge m1 s.top b then { s with mem := merge m1 b }
    else { s with mem := m1 }

/-- The _malloc of the source: reject size 0, align, search, mark the hit
Used, or grow via requestFromOS, reformat and mark the new block Used;
the returned payload is the value of the block's data field. -/
def _malloc (s : AState) (size : Nat) : AState × Nat :=
  if size = 0 then (s, 0)
  else
    let sz := align size
    let fb := findBlock s sz
    let s1 := fb.1
    let block := fb.2
    if block ≠ 0 then
      let m2 := setFree s1.mem block false
      ({ s1 with mem := m2 }, m2 ((block + 8) % W))
    else
      let ro := requestFromOS s1 sz
      let s2 := ro.1
      let nb := ro.2
      if nb ≠ 0 then
        let m3 := setSize s2.mem nb sz
        let m4 := setFree m3 nb false
        let s3 : AState :=
          if s2.heapStart = 0 then { s2 with mem := m4, heapStart := nb, top := nb }
          else { s2 with mem := m4, top := nb }
        (s3, m4 ((nb + 8) % W))
      else (s2, 0)

/-- memcpy modelled word wise; every copy performed in this development has
8-aligned arguments and a length that is a multiple of 8, where this is
byte exact. -/
def memcpy (m : Mem) (dst src n : Nat) : Mem :=
  (List.range (n / 8)).foldl
    (fun mm i => store mm ((dst + 8 * i) % W) (m ((src + 8 * i) % W))) m

/-- The _realloc of the source: unconditionally _malloc the new size, then,
if that returned nonnull, memcpy getBlockSize(getBlock(data)) bytes from
the old payload and _free it. -/
def _realloc (s : AState) (data newSize : Nat) : AState × Nat :=
  let ml := _malloc s newSize
  let s1 := ml.1
  let newBlock := ml.2
  let oldBlock := getBlock data
  if newBlock ≠ 0 then
    let m2 := memcpy s1.mem newBlock data (getBlockSize s1.mem oldBlock)
    (_free { s1 with mem := m2 } data, newBlock)
  else (s1, newBlock)

/-- Heap for C1: a Free block at 64 (header 17: size 16, free) directly
before a Used block at 80 (header 16), which is the top block. -/
def c1mem : Mem := fun a => if a = 64 then 17 else if a = 80 then 16 else 0

/-- State for C1. -/
def c1s : AState :=
  { mem := c1mem, heapStart := 64, top := 80, brk := 96, cap := 4096,
    searchMode := SearchMode.FirstFit }

/-- Heap for C2: two adjacent Free blocks of recorded size 16 at 64 and 80. -/
def c2mem : Mem := fun a => if a = 64 then 17 else if a = 80 then 17 else 0

/-- Heap for C3: one Free block of recorded size 16 at 64. -/
def c3mem : Mem := fun a => if a = 64 then 17 else 0

/-- Heap for C4: one Used block at 64 (header 16) whose payload words at 80
and 88 hold the pattern 111 and 222; fresh sbrk memory is zero filled. -/
def c4mem : Mem := fun a => if a = 64 then 16 else if a = 80 then 111 else if a = 88 then 222 else 0

/-- State for C4: the single block at 64 is the top; the break is at 96. -/
def c4s : AState :=
  { mem := c4mem, heapStart := 64, top := 64, brk := 96, cap := 4096,
    searchMode := SearchMode.FirstFit }

/-- Heap for C5: a Free block at 64 (header 17) whose data field word at 72
holds the stale pointer 4096; the word at the null address 0 is 8. -/
def c5mem : Mem := fun a => if a = 0 then 8 else if a = 64 then 17 else if a = 72 then 4096 else 0

/-- State for C5. -/
def c5s : AState :=
  { mem := c5mem, heapStart := 64, top := 64, brk := 96, cap := 4096,
    searchMode := SearchMode.FirstFit }

/-- Heap for C6: a Used block at 64 (header 16) and a Free block at 80
(header 17, recorded size 16), the top block. -/
def c6mem : Mem := fun a => if a = 64 then 16 else if a = 80 then 17 else 0

/-- State for C6, with the best fit strategy selected. -/
def c6s : AState :=
  { mem := c6mem, heapStart := 64, top := 80, brk := 96, cap := 4096,
    searchMode := SearchMode.BestFit }

/-- State for C7: the empty heap before the first allocation. -/
def c7s : AState :=
  { mem := fun _ => 0, heapStart := 0, top := 0, brk := 64, cap := 4096,
    searchMode := SearchMode.FirstFit }

/-- A memory of arbitrary header words, used to instantiate witnesses. -/
def wmem : Mem := fun _ => 21

/-- Numeric value of the word modulus, in the form omega consumes. -/
theorem W_eq : W = 18446744073709551616 := by norm_num [W]

/-- The word modulus is positive. -/
theorem W_pos : 0 < W := by norm_num [W]

/-- The size mask written as a shift, exposing its bit pattern. -/
theorem mask2_shift : W - 2 = (2 ^ 63 - 1) <<< 1 := by
  rw [Nat.shiftLeft_eq]
  norm_num [W]

/-- The alignment mask written as a shift, exposing its bit pattern. -/
theorem mask8_shift : W - 8 = (2 ^ 61 - 1) <<< 3 := by
  rw [Nat.shiftLeft_eq]
  norm_num [W]

/-- Bit i of the size mask W - 2 is set exactly for 1 <= i < 64. -/
theorem testBit_mask2 (i : Nat) :
    (W - 2).testBit i = (decide (1 ≤ i) && decide (i < 64)) := by
  rw [mask2_shift, Nat.testBit_shiftLeft, Nat.testBit_two_pow_sub_one]
  have h1 : (decide (i - 1 < 63)) = (decide (i < 64)) := decide_eq_decide.mpr (by omega)
  rw [h1]

/-- Bit i of the alignment mask W - 8 is set exactly for 3 <= i < 64. -/
theorem testBit_mask8 (i : Nat) :
    (W - 8).testBit i = (decide (3 ≤ i) && decide (i < 64)) := by
  rw [mask8_shift, Nat.testBit_shiftLeft, Nat.testBit_two_pow_sub_one]
  have h1 : (decide (i - 3 < 61)) = (decide (i < 64)) := decide_eq_decide.mpr (by omega)
  rw [h1]

/-- Bit i of the literal 1. -/
theorem testBit_one_iff (i : Nat) : Nat.testBit 1 i = decide (i = 0) := by
  have h : (1 : Nat) = 2 ^ 1 - 1 := rfl
  rw [h, Nat.testBit_two_pow_sub_one]
  exact decide_eq_decide.mpr (by omega)

/-- Bits at and above 64 of a word below W are clear. -/
theorem testBit_high {x i : Nat} (hx : x < W) (hi : 64 ≤ i) : x.testBit i = false := by
  apply Nat.testBit_lt_two_pow
  calc x < W := hx
    _ = 2 ^ 64 := rfl
    _ ≤ 2 ^ i := Nat.pow_le_pow_right (by norm_num) hi

/-- Oring a free bit into an even word below W and masking it back off
returns the word: the size round trip under the header packing. -/
theorem lor_andone_and_mask2 (s h : Nat) (hs : s < W) (he : 2 ∣ s) :
    (s ||| (h &&& 1)) &&& (W - 2) = s := by
  apply Nat.eq_of_testBit_eq
  intro i
  rw [Nat.testBit_and, Nat.testBit_or, Nat.testBit_and, testBit_one_iff, testBit_mask2]
  rcases Nat.lt_or_ge i 1 with hi | hi
  · have h0 : i = 0 := by omega
    subst h0
    have hsb : s.testBit 0 = false := by
      rw [Nat.testBit_zero]
      have hm : s % 2 = 0 := by omega
      simp [hm]
    simp [hsb]
  · rcases Nat.lt_or_ge i 64 with hi64 | hi64
    · have hz : ¬ (i = 0) := by omega
      simp [hz, hi, hi64]
    · have hsb : s.testBit i = false := testBit_high hs hi64
      have hn : ¬ (i < 64) := by omega
      simp [hsb, hn]

/-- Bit 0 of setSize output equals bit 0 of the old header when the new
size is even. -/
theorem lor_andone_and_one (s h : Nat) (he : 2 ∣ s) :
    (s ||| (h &&& 1)) &&& 1 = h &&& 1 := by
  apply Nat.eq_of_testBit_eq
  intro i
  simp only [Nat.testBit_and, Nat.testBit_or, testBit_one_iff]
  rcases eq_or_ne i 0 with h0 | h0
  · subst h0
    have hsb : s.testBit 0 = false := by
      rw [Nat.testBit_zero]
      have hm : s % 2 = 0 := by omega
      simp [hm]
    simp [hsb]
  · simp [h0]

/-- Setting the free bit does not change the masked size. -/
theorem lor_one_and_mask2 (h : Nat) : (h ||| 1) &&& (W - 2) = h &&& (W - 2) := by
  apply Nat.eq_of_testBit_eq
  intro i
  simp only [Nat.testBit_and, Nat.testBit_or, testBit_one_iff, testBit_mask2]
  rcases eq_or_ne i 0 with h0 | h0
  · subst h0
    simp
  · simp [h0]

/-- Clearing the free bit does not change the masked size. -/
theorem and_mask2_and_mask2 (h : Nat) : (h &&& (W - 2)) &&& (W - 2) = h &&& (W - 2) := by
  apply Nat.eq_of_testBit_eq
  intro i
  simp only [Nat.testBit_and]
  cases hb : (W - 2).testBit i <;> simp [hb]

/-- Setting the free bit makes bit 0 read as one. -/
theorem lor_one_and_one (h : Nat) : (h ||| 1) &&& 1 = 1 := by
  apply Nat.eq_of_testBit_eq
  intro i
  simp only [Nat.testBit_and, Nat.testBit_or, testBit_one_iff]
  rcases eq_or_ne i 0 with h0 | h0
  · subst h0
    simp
  · simp [h0]

/-- Clearing the free bit makes bit 0 read as zero. -/
theorem and_mask2_and_one (h : Nat) : (h &&& (W - 2)) &&& 1 = 0 := by
  apply Nat.eq_of_testBit_eq
  intro i
  simp only [Nat.testBit_and, testBit_mask2, testBit_one_iff, Nat.zero_testBit]
  rcases eq_or_ne i 0 with h0 | h0
  · subst h0
    simp
  · simp [h0]

/-- Anding a word below W with the alignment mask rounds it down to a
multiple of 8. -/
theorem and_mask8_div (x : Nat) (hx : x < W) : x &&& (W - 8) = x / 8 * 8 := by
  have hsh : x / 8 * 8 = (x >>> 3) <<< 3 := by
    rw [Nat.shiftLeft_eq, Nat.shiftRight_eq_div_pow]
  rw [hsh]
  apply Nat.eq_of_testBit_eq
  intro i
  rw [Nat.testBit_and, testBit_mask8, Nat.testBit_shiftLeft, Nat.testBit_shiftRight]
  rcases Nat.lt_or_ge i 3 with hi | hi
  · have hn : ¬ (3 ≤ i) := by omega
    simp [hn]
  · have hadd : 3 + (i - 3) = i := by omega
    rcases Nat.lt_or_ge i 64 with hi64 | hi64
    · simp [hi, hi64, hadd, ge_iff_le]
    · have hsb : x.testBit i = false := testBit_high hx hi64
      have hn : ¬ (i < 64) := by omega
      simp [hadd, hsb, hn]

/-- The masked size is always even. -/
theorem and_mask2_even (h : Nat) : 2 ∣ (h &&& (W - 2)) := by
  have h1 : (h &&& (W - 2)) &&& 1 = 0 := and_mask2_and_one h
  rw [Nat.and_one_is_mod] at h1
  omega

/-- The masked size is always below W. -/
theorem and_mask2_lt (h : Nat) : h &&& (W - 2) < W := by
  have h1 : h &&& (W - 2) ≤ W - 2 := Nat.and_le_right
  have h2 := W_eq
  omega

/-- Reading the stored address returns the stored word. -/
theorem store_same (m : Mem) (a v : Nat) : store m a v a = v := by
  simp [store]

/-- Reading any other address is unchanged by a store. -/
theorem store_other (m : Mem) (a v x : Nat) (hx : x ≠ a) : store m a v x = m x := by
  simp [store, hx]

/-- Evenness survives reduction modulo W. -/
theorem mod_W_even (x : Nat) (hx : 2 ∣ x) : 2 ∣ (x % W) := by
  rw [W_eq]
  omega

/-- The recorded size of any block is below W. -/
theorem getBlockSize_lt (m : Mem) (b : Nat) : getBlockSize m b < W :=
  and_mask2_lt (m b)

/-- The recorded size of any block is even. -/
theorem getBlockSize_even (m : Mem) (b : Nat) : 2 ∣ getBlockSize m b :=
  and_mask2_even (m b)

/-- setSize followed by getBlockSize returns the written size, for an even
size below W. -/
theorem getBlockSize_setSize (m : Mem) (b s : Nat) (hs : s < W) (he : 2 ∣ s) :
    getBlockSize (setSize m b s) b = s := by
  unfold getBlockSize setSize
  rw [store_same]
  exact lor_andone_and_mask2 s (m b) hs he

/-- setSize of an even size leaves the free flag unchanged. -/
theorem isFree_setSize (m : Mem) (b s : Nat) (he : 2 ∣ s) :
    isFree (setSize m b s) b = isFree m b := by
  unfold isFree setSize
  rw [store_same, lor_andone_and_one s (m b) he]

/-- setFree leaves the recorded size unchanged. -/
theorem getBlockSize_setFree (m : Mem) (b : Nat) (f : Bool) :
    getBlockSize (setFree m b f) b = getBlockSize m b := by
  unfold getBlockSize setFree
  cases f
  · rw [if_neg (by simp), store_same, and_mask2_and_mask2]
  · rw [if_pos rfl, store_same, lor_one_and_mask2]

/-- setFree followed by isFree returns the written flag. -/
theorem isFree_setFree (m : Mem) (b : Nat) (f : Bool) :
    isFree (setFree m b f) b = f := by
  unfold isFree setFree
  cases f
  · rw [if_neg (by simp), store_same, and_mask2_and_one]
    simp
  · rw [if_pos rfl, store_same, lor_one_and_one]
    simp

/-- setFree writes no cell but the block header. -/
theorem setFree_frame (m : Mem) (b : Nat) (f : Bool) (a : Nat) (ha : a ≠ b) :
    setFree m b f a = m a := by
  unfold setFree
  cases f
  · rw [if_neg (by simp)]
    exact store_other m b _ a ha
  · rw [if_pos rfl]
    exact store_other m b _ a ha

/-- setSize writes no cell but the block header. -/
theorem setSize_frame (m : Mem) (b s : Nat) (a : Nat) (ha : a ≠ b) :
    setSize m b s a = m a := by
  unfold setSize
  exact store_other m b _ a ha

/-- setFree leaves the chain successor of the block unchanged. -/
theorem getNext_setFree (m : Mem) (b : Nat) (f : Bool) :
    getNext (setFree m b f) b = getNext m b := by
  unfold getNext
  rw [getBlockSize_setFree]

/-- merge writes the size_t value blockSize + nextSize - sizeof(Block) into
the block's recorded size. -/
theorem merge_size (m : Mem) (b : Nat) :
    getBlockSize (merge m b) b
      = (getBlockSize m b + getBlockSize m (getNext m b) + (W - 16)) % W := by
  unfold merge
  apply getBlockSize_setSize
  · exact Nat.mod_lt _ W_pos
  · apply mod_W_even
    have h1 := getBlockSize_even m b
    have h2 := getBlockSize_even m (getNext m b)
    have h3 := W_eq
    omega

/-- merge writes no cell but the block header; in particular the absorbed
header word itself is left in place. -/
theorem merge_frame (m : Mem) (b a : Nat) (ha : a ≠ b) : merge m b a = m a := by
  unfold merge
  exact setSize_frame m b _ a ha

/-- merge leaves the free flag of the block unchanged. -/
theorem isFree_merge (m : Mem) (b : Nat) : isFree (merge m b) b = isFree m b := by
  unfold merge
  apply isFree_setSize
  apply mod_W_even
  have h1 := getBlockSize_even m b
  have h2 := getBlockSize_even m (getNext m b)
  have h3 := W_eq
  omega

/-- Claim C8: allocate(0) returns null and leaves the entire heap state
(heapStart, top, break, every block header) unchanged: the size check is
the first statement of _malloc. -/
theorem C8_malloc_zero (s : AState) : _malloc s 0 = (s, 0) := rfl

/-- Claim C10: the size and the free flag share one header word with the
free flag in bit 0: for every word aligned size s below 2^64, getBlockSize
after setSize(block, s) returns s, setSize leaves isFree unchanged, and
setFree leaves getBlockSize unchanged while setting isFree to its argument. -/
theorem C10_header_encoding (m : Mem) (b s : Nat) (f : Bool) (hs : s < W) (ha : 8 ∣ s) :
    getBlockSize (setSize m b s) b = s
    ∧ isFree (setSize m b s) b = isFree m b
    ∧ getBlockSize (setFree m b f) b = getBlockSize m b
    ∧ isFree (setFree m b f) b = f := by
  have h2 : 2 ∣ s := dvd_trans (by norm_num) ha
  exact ⟨getBlockSize_setSize m b s hs h2, isFree_setSize m b s h2,
    getBlockSize_setFree m b f, isFree_setFree m b f⟩

/-- Witness for C10 at the concrete header word 21, block 64, size 24. -/
theorem C10_header_witness :
    getBlockSize (setSize wmem 64 24) 64 = 24
    ∧ isFree (setSize wmem 64 24) 64 = isFree wmem 64
    ∧ getBlockSize (setFree wmem 64 false) 64 = getBlockSize wmem 64
    ∧ isFree (setFree wmem 64 false) 64 = false :=
  C10_header_encoding wmem 64 24 false (by rw [W_eq]; omega) (by omega)

/-- Claim C2 counterexample: both blocks of c2mem are Free and adjacent and
canMerge holds, yet merging the block at 64 (size 16) with its successor at
80 (size 16) records size 16, not block.size + headerSize + next.size = 48:
the code subtracts sizeof(Block) instead of adding it. -/
theorem C2_counterexample :
    canMerge c2mem 80 64 = true
    ∧ getBlockSize (merge c2mem 64) 64 = 16
    ∧ getBlockSize c2mem 64 + headerSize + getBlockSize c2mem (getNext c2mem 64) = 48
    ∧ getBlockSize (merge c2mem 64) 64
        ≠ getBlockSize c2mem 64 + headerSize + getBlockSize c2mem (getNext c2mem 64) := by
  refine ⟨?_, ?_, ?_, ?_⟩ <;> decide

/-- Claim C2 (amended): merge(block) records size
(block.size + next.size - sizeof(Block)) mod 2^64 — the absorbed header is
subtracted rather than added — and writes no cell other than block's own
header, so the absorbed header word stays in place; with this size the
absorbed header can even remain addressable through getNext. -/
theorem C2_merge_size_formula (m : Mem) (b : Nat) :
    getBlockSize (merge m b) b
      = (getBlockSize m b + getBlockSize m (getNext m b) + (W - 16)) % W
    ∧ ∀ a, a ≠ b → merge m b a = m a :=
  ⟨merge_size m b, fun a ha => merge_frame m b a ha⟩

/-- Witness for C2 at the concrete heap c2mem, block 64, other cell 80. -/
theorem C2_merge_witness :
    getBlockSize (merge c2mem 64) 64
      = (getBlockSize c2mem 64 + getBlockSize c2mem (getNext c2mem 64) + (W - 16)) % W
    ∧ merge c2mem 64 80 = c2mem 80 :=
  ⟨(C2_merge_size_formula c2mem 64).1, (C2_merge_size_formula c2mem 64).2 80 (by decide)⟩

/-- Claim C3 (code bug): canSplit reserves no room for a remainder header:
on a Free block of recorded size 16 with aligned requestedSize 8 it answers
true although 16 < 8 + headerSize (so the claimed bound fails for every
minimumBlockSize), and the split it enables underflows in size_t, recording
remainder size (16 - 8 - 16) mod 2^64 = 2^64 - 8 at the carved off header. -/
theorem C3_canSplit_reserves_nothing :
    canSplit c3mem 64 8 = true
    ∧ getBlockSize c3mem 64 < 8 + headerSize
    ∧ getBlockSize (split c3mem 64 8) 72 = W - 8
    ∧ isFree (split c3mem 64 8) 72 = true := by
  refine ⟨?_, ?_, ?_, ?_⟩ <;> decide

/-- Claim C6 (code bug): the bestFit body is a TODO stub that returns
heapStart without scanning: on c6s, whose heapStart block 64 is Used while
a qualifying Free block of size 16 sits at 80 within top, the best fit
search still returns 64. -/
theorem C6_bestFit_is_stub :
    bestFit c6s 8 = 64
    ∧ isFree c6s.mem 64 = false
    ∧ isFree c6s.mem 80 = true
    ∧ 8 ≤ getBlockSize c6s.mem 80
    ∧ getNext c6s.mem 64 = 80
    ∧ 80 ≤ c6s.top := by
  refine ⟨?_, ?_, ?_, ?_, ?_, ?_⟩ <;> decide

/-- Claim C1 counterexample: on c1s the block at 64 is already Free and the
adjacent top block at 80 is Used; releasing the payload 96 of the block at
80 marks it Free but merges nothing (its successor 96 lies beyond top and
the Free predecessor is never considered), so two address-adjacent Free
blocks persist after release completes. -/
theorem C1_counterexample :
    isFree (_free c1s 96).mem 64 = true
    ∧ isFree (_free c1s 96).mem 80 = true
    ∧ getNext (_free c1s 96).mem 64 = 80
    ∧ (_free c1s 96).heapStart = 64
    ∧ (_free c1s 96).top = 80 := by
  refine ⟨?_, ?_, ?_, ?_, ?_⟩ <;> decide

/-- Claim C4 (code bug): reallocating the top block (payload 80, recorded
size 16, pattern words 111 and 222) to the larger size 24 on zero filled
fresh memory returns null instead of a new payload, copies nothing and
releases nothing, and the growth path has already overwritten the old
payload word at 88 with the new block address 96 before any copy could
happen, because requestFromOS assigns through getNext(top). -/
theorem C4_realloc_corrupts_payload :
    c4s.mem 88 = 222
    ∧ (_realloc c4s 80 24).2 = 0
    ∧ (_realloc c4s 80 24).1.mem 88 = 96
    ∧ isFree (_realloc c4s 80 24).1.mem 64 = false := by
  refine ⟨?_, ?_, ?_, ?_⟩ <;> decide

/-- Claim C5 (code bug): reallocate(null, 16) does not behave as
allocate(16): after the inner _malloc succeeds (returning the stale data
field 4096 of the recycled Free block), the code reads the block header of
the null pointer — the word 8 stored at address 0 — and copies 8 bytes from
address 0 into the returned region, so the final heap differs from the heap
allocate(16) leaves at the word 4096. -/
theorem C5_realloc_null_reads_null :
    (_realloc c5s 0 16).2 = (_malloc c5s 16).2
    ∧ (_malloc c5s 16).2 = 4096
    ∧ (_realloc c5s 0 16).1.mem 4096 = 8
    ∧ (_malloc c5s 16).1.mem 4096 = 0 := by
  refine ⟨?_, ?_, ?_, ?_⟩ <;> decide

/-- Claim C7 (code bug): on a search miss allocate grows the heap by
align(size) bytes only, not align(size) + headerSize: allocate(10) on the
empty heap c7s moves the break from 64 to 80 = 64 + align 10, not to
64 + align 10 + headerSize = 96, and the formatted block (header at 64,
recorded payload size 16) extends to 96, beyond the new break. -/
theorem C7_growth_omits_header :
    (_malloc c7s 10).1.brk = c7s.brk + align 10
    ∧ align 10 + headerSize = 32
    ∧ (_malloc c7s 10).1.brk ≠ c7s.brk + (align 10 + headerSize)
    ∧ (_malloc c7s 10).1.heapStart = 64
    ∧ (_malloc c7s 10).1.top = 64
    ∧ (_malloc c7s 10).1.brk < 64 + headerSize + getBlockSize (_malloc c7s 10).1.mem 64 := by
  refine ⟨?_, ?_, ?_, ?_, ?_, ?_⟩ <;> decide

/-- Claim C1 (amended): release(payload) on a nonnull payload marks the
block Free and merges forward at most once — exactly when the code's
canMerge test succeeds on the marked heap — and it writes no header other
than the released block's own: there is no repeated forward merge and no
backward merge, so two address-adjacent Free blocks can persist after a
release completes (see the counterexample). -/
theorem C1_release_single_forward_merge (s : AState) (data : Nat) (hd : data ≠ 0) :
    isFree (_free s data).mem (getBlock data) = true
    ∧ (∀ a, a ≠ getBlock data → (_free s data).mem a = s.mem a)
    ∧ (_free s data).heapStart = s.heapStart
    ∧ (_free s data).top = s.top
    ∧ (_free s data).brk = s.brk
    ∧ (canMerge (setFree s.mem (getBlock data) true) s.top (getBlock data) = false →
        getBlockSize (_free s data).mem (getBlock data)
          = getBlockSize s.mem (getBlock data))
    ∧ (canMerge (setFree s.mem (getBlock data) true) s.top (getBlock data) = true →
        getBlockSize (_free s data).mem (getBlock data)
          = (getBlockSize s.mem (getBlock data)
             + getBlockSize (setFree s.mem (getBlock data) true)
                 (getNext s.mem (getBlock data))
             + (W - 16)) % W) := by
  have hfree : _free s data =
      if canMerge (setFree s.mem (getBlock data) true) s.top (getBlock data)
      then { s with mem := merge (setFree s.mem (getBlock data) true) (getBlock data) }
      else { s with mem := setFree s.mem (getBlock data) true } := by
    unfold _free
    rw [if_neg hd]
  cases hcm : canMerge (setFree s.mem (getBlock data) true) s.top (getBlock data)
  · have hmem : (_free s data).mem = setFree s.mem (getBlock data) true := by
      rw [hfree, hcm]
      simp
    have hhs : (_free s data).heapStart = s.heapStart := by
      rw [hfree, hcm]
      simp
    have htp : (_free s data).top = s.top := by
      rw [hfree, hcm]
      simp
    have hbk : (_free s data).brk = s.brk := by
      rw [hfree, hcm]
      simp
    refine ⟨?_, ?_, hhs, htp, hbk, ?_, ?_⟩
    · rw [hmem]
      exact isFree_setFree _ _ _
    · intro a ha
      rw [hmem]
      exact setFree_frame s.mem (getBlock data) true a ha
    · intro _
      rw [hmem]
      exact getBlockSize_setFree s.mem (getBlock data) true
    · intro h
      cases h
  · have hmem : (_free s data).mem
        = merge (setFree s.mem (getBlock data) true) (getBlock data) := by
      rw [hfree, hcm]
      simp
    have hhs : (_free s data).heapStart = s.heapStart := by
      rw [hfree, hcm]
      simp
    have htp : (_free s data).top = s.top := by
      rw [hfree, hcm]
      simp
    have hbk : (_free s data).brk = s.brk := by
      rw [hfree, hcm]
      simp
    refine ⟨?_, ?_, hhs, htp, hbk, ?_, ?_⟩
    · rw [hmem, isFree_merge, isFree_setFree]
    · intro a ha
      rw [hmem, merge_frame _ _ a ha, setFree_frame s.mem (getBlock data) true a ha]
    · intro h
      cases h
    · intro _
      rw [hmem, merge_size, getBlockSize_setFree, getNext_setFree]

/-- Witness for C1: releasing payload 96 in c1s marks block 80 Free and
leaves the header at 64 and the globals untouched. -/
theorem C1_release_witness :
    isFree (_free c1s 96).mem (getBlock 96) = true
    ∧ (_free c1s 96).mem 64 = c1s.mem 64
    ∧ (_free c1s 96).top = c1s.top := by
  have h := C1_release_single_forward_merge c1s 96 (by decide)
  exact ⟨h.1, h.2.1 64 (by decide), h.2.2.2.1⟩

/-- align rewritten through the rounding identity, below the wrap point. -/
theorem align_eq_of_lt (n : Nat) (h : n + 7 < W) : align n = (n + 7) / 8 * 8 := by
  unfold align
  rw [Nat.mod_eq_of_lt h, and_mask8_div (n + 7) h]

/-- align rewritten through the rounding identity, in general. -/
theorem align_eq_mod (n : Nat) : align n = ((n + 7) % W) / 8 * 8 := by
  unfold align
  exact and_mask8_div _ (Nat.mod_lt _ W_pos)

/-- Claim C9 (amended): whenever the size_t addition n + 7 does not wrap
(n + 7 < 2^64), align n is the smallest multiple of the word size 8 that is
at least n; align is idempotent on every input and align 0 = 0.  As stated,
for every n, the claim fails at the wrap point: see the counterexample. -/
theorem C9_align_smallest_multiple :
    (∀ n, n + 7 < W → 8 ∣ align n ∧ n ≤ align n ∧ ∀ k, 8 ∣ k → n ≤ k → align n ≤ k)
    ∧ (∀ n, align (align n) = align n)
    ∧ align 0 = 0 := by
  refine ⟨?_, ?_, ?_⟩
  · intro n h
    rw [align_eq_of_lt n h]
    refine ⟨by omega, by omega, ?_⟩
    intro k hk hnk
    omega
  · intro n
    have hW := W_eq
    have hx : (n + 7) % W < W := Nat.mod_lt _ W_pos
    rw [align_eq_mod n]
    generalize hg : (n + 7) % W = x at hx ⊢
    have h7 : x / 8 * 8 + 7 < W := by omega
    rw [align_eq_of_lt _ h7]
    omega
  · have h7 : (0 : Nat) + 7 < W := by rw [W_eq]; omega
    rw [align_eq_of_lt 0 h7]

/-- Claim C9 counterexample: at n = 2^64 - 1 the size_t addition n + 7
wraps to 6, so align returns 0, which is not a multiple of 8 at least n:
align is not the smallest multiple of the word size above n for every n. -/
theorem C9_counterexample : align (W - 1) = 0 ∧ ¬ (W - 1 ≤ align (W - 1)) := by
  refine ⟨by decide, ?_⟩
  intro h
  rw [W_eq] at h
  revert h
  decide

/-- Witness for C9 at n = 13: align 13 is a multiple of 8, at least 13, at
most the competing multiple 16, and a fixed point of align. -/
theorem C9_align_witness :
    8 ∣ align 13 ∧ 13 ≤ align 13 ∧ align 13 ≤ 16 ∧ align (align 13) = align 13 := by
  have h := C9_align_smallest_multiple
  have h13 : (13 : Nat) + 7 < W := by rw [W_eq]; omega
  have h1 := h.1 13 h13
  exact ⟨h1.1, h1.2.1, h1.2.2 16 (by omega) (by omega), h.2.1 13⟩
